import Mathlib

/-!
Shallow embedding of the lc3-vm sources (an LC-3 virtual machine written in
Rust) and proofs about the program's behaviour.

Machine integers: the Rust code works on `u16` (and `u8` byte values).  We
model them as `Nat` with explicit `% 65536` (resp. `% 256`) exactly where the
Rust code performs wrapping operations (`wrapping_add`, truncating casts,
shifts of `u16` values).  Checked arithmetic that can overflow (`+=` on a
`u16`, which panics on overflow in the default, overflow-checked build) is
modelled by an explicit overflow branch.

Effects: every Rust side effect is made explicit.
* stdin is a list of pending bytes (`Input`); a blocking read with no pending
  byte is the `Outcome.blocked` outcome (the call has not returned),
* stdout is an accumulated `List Char`,
* a Rust `panic!` is `Outcome.panicked msg`,
* `&mut` state is passed and returned functionally.
-/

namespace LC3

/-- Outcome of running a piece of the VM: a normal result, a blocking stdin
read that has not returned because no byte is pending, or a Rust panic. -/
inductive Outcome (α : Type) where
  | ok : α → Outcome α
  | blocked : Outcome α
  | panicked : String → Outcome α

/-- The pending bytes of standard input (each entry is one byte, `< 256`). -/
abbrev Input := List Nat

/-- Embeds `utils::getchar` (src/utils.rs): reads exactly one byte from
stdin.  With no pending byte the underlying `read_exact` blocks, which we
model as `none`; otherwise the byte is consumed and returned. -/
def getchar (inp : Input) : Option (Nat × Input) :=
  match inp with
  | [] => none
  | b :: rest => some (b, rest)

/-- Embeds `hardware::memory::MEMORY_SIZE`. -/
def MEMORY_SIZE : Nat := 65536

/-- Embeds the `MemoryMappedRegister::KBSR` discriminant (0xFE00). -/
def KBSR : Nat := 0xFE00

/-- Embeds the `MemoryMappedRegister::KBDR` discriminant (0xFE02). -/
def KBDR : Nat := 0xFE02

/-- Embeds `hardware::memory::Memory`: the 65536-word array, as a function
from addresses to cell values. -/
structure Memory where
  memory : Nat → Nat

/-- Embeds `Memory::new`: all locations zero. -/
def Memory.new : Memory := ⟨fun _ => 0⟩

/-- Embeds `Memory::write`: stores the value at the address, no side
effects. -/
def Memory.write (m : Memory) (address value : Nat) : Memory :=
  ⟨fun x => if x = address then value else m.memory x⟩

/-- Embeds `Memory::read` (src/hardware/memory.rs, lines 51-62).  On the
keyboard-status address it calls the blocking `getchar()`: if the byte read
is nonzero the ready bit (1 <<< 15) is set and the byte is latched into the
keyboard-data cell, otherwise the status cell is cleared.  With no pending
stdin byte the `getchar` call blocks, hence `Outcome.blocked`.  Every other
address just returns the cell. -/
def Memory.read (m : Memory) (inp : Input) (address : Nat) :
    Outcome (Nat × Memory × Input) :=
  if address = KBSR then
    match getchar inp with
    | none => Outcome.blocked
    | some (char, rest) =>
      if char ≠ 0 then
        let m1 := (m.write KBSR (1 <<< 15)).write KBDR char
        Outcome.ok (m1.memory address, m1, rest)
      else
        let m1 := m.write KBSR 0
        Outcome.ok (m1.memory address, m1, rest)
  else
    Outcome.ok (m.memory address, m, inp)

/-- Embeds `hardware::registers::PC_START`. -/
def PC_START : Nat := 0x3000

/-- Embeds the `Register` discriminants: R0-R7 are 0-7, PC is 8, COND is 9.
Registers are modelled as a function from those indices to values. -/
structure Registers where
  r : Nat → Nat

/-- Embeds `Flag::POS`. -/
def Flag.POS : Nat := 1

/-- Embeds `Flag::ZRO`. -/
def Flag.ZRO : Nat := 2

/-- Embeds `Flag::NEG`. -/
def Flag.NEG : Nat := 4

/-- Embeds `Registers::new`: all zero except PC = PC_START and
COND = Flag::ZRO. -/
def Registers.new : Registers :=
  ⟨fun i => if i = 8 then PC_START else if i = 9 then Flag.ZRO else 0⟩

/-- Embeds `Registers::read`. -/
def Registers.read (regs : Registers) (reg : Nat) : Nat := regs.r reg

/-- Embeds `Registers::write`. -/
def Registers.write (regs : Registers) (reg value : Nat) : Registers :=
  ⟨fun i => if i = reg then value else regs.r i⟩

/-- Embeds `Registers::update_flags` (src/hardware/registers.rs, lines
96-106): COND := ZRO if the register is zero, NEG if its bit 15 is set,
else POS. -/
def Registers.update_flags (regs : Registers) (reg : Nat) : Registers :=
  let value := regs.read reg
  if value = 0 then regs.write 9 Flag.ZRO
  else if value >>> 15 = 1 then regs.write 9 Flag.NEG
  else regs.write 9 Flag.POS

/-- The COND register holds one of the three flag values. -/
def condValid (regs : Registers) : Prop :=
  regs.read 9 = Flag.POS ∨ regs.read 9 = Flag.ZRO ∨ regs.read 9 = Flag.NEG

/-- Embeds `utils::sign_extend` (src/utils.rs, lines 59-65).  The Rust mask
`0xFFFF << bit_count` is a `u16` shift, so it is truncated modulo 2^16. -/
def sign_extend (x : Nat) (bit_count : Nat) : Nat :=
  if (x >>> (bit_count - 1)) &&& 1 ≠ 0 then
    x ||| ((0xFFFF <<< bit_count) % 65536)
  else
    x

/-- Embeds `u16::wrapping_add`. -/
def wrapping_add (a b : Nat) : Nat := (a + b) % 65536

/-- Embeds `isa::instructions::Opcode` (discriminants 0-15 in source
order). -/
inductive Opcode where
  | BR | ADD | LD | ST | JSR | AND | LDR | STR
  | RTI | NOT | LDI | STI | JMP | RES | LEA | TRAP

/-- Embeds `Opcode::from` (src/isa/instructions.rs, lines 23-50): the match
over 0-15; the catch-all arm panics, modelled as `none`. -/
def Opcode.fromNat (value : Nat) : Option Opcode :=
  if value = 0 then some .BR
  else if value = 1 then some .ADD
  else if value = 2 then some .LD
  else if value = 3 then some .ST
  else if value = 4 then some .JSR
  else if value = 5 then some .AND
  else if value = 6 then some .LDR
  else if value = 7 then some .STR
  else if value = 8 then some .RTI
  else if value = 9 then some .NOT
  else if value = 10 then some .LDI
  else if value = 11 then some .STI
  else if value = 12 then some .JMP
  else if value = 13 then some .RES
  else if value = 14 then some .LEA
  else if value = 15 then some .TRAP
  else none

/-- Embeds `instructions::branch`. -/
def branch (regs : Registers) (instr : Nat) : Registers :=
  let pc_offset := sign_extend (instr &&& 0x1FF) 9
  let instr_cond := (instr >>> 9) &&& 0x7
  let reg_cond := regs.read 9
  if instr_cond &&& reg_cond ≠ 0 then
    regs.write 8 (wrapping_add (regs.read 8) pc_offset)
  else
    regs

/-- Embeds `instructions::add` (src/isa/instructions.rs, lines 89-107):
wrapping addition of SR1 and either the sign-extended 5-bit immediate or
SR2, then `update_flags` on the destination. -/
def add (regs : Registers) (instr : Nat) : Registers :=
  let r0 := (instr >>> 9) &&& 0x7
  let r1 := (instr >>> 6) &&& 0x7
  let imm_flag := (instr >>> 5) &&& 0x1
  let regs1 :=
    if imm_flag = 1 then
      regs.write r0 (wrapping_add (regs.read r1) (sign_extend (instr &&& 0x1F) 5))
    else
      regs.write r0 (wrapping_add (regs.read r1) (regs.read (instr &&& 0x7)))
  regs1.update_flags r0

/-- Embeds `instructions::and` (bitwise AND variant of `add`). -/
def and_instr (regs : Registers) (instr : Nat) : Registers :=
  let r0 := (instr >>> 9) &&& 0x7
  let r1 := (instr >>> 6) &&& 0x7
  let imm_flag := (instr >>> 5) &&& 0x1
  let regs1 :=
    if imm_flag = 1 then
      regs.write r0 (regs.read r1 &&& sign_extend (instr &&& 0x1F) 5)
    else
      regs.write r0 (regs.read r1 &&& regs.read (instr &&& 0x7))
  regs1.update_flags r0

/-- Embeds `instructions::not` (`!sr` on a `u16` is XOR with 0xFFFF). -/
def not_instr (regs : Registers) (instr : Nat) : Registers :=
  let r0 := (instr >>> 9) &&& 0x7
  let r1 := (instr >>> 6) &&& 0x7
  ((regs.write r0 (regs.read r1 ^^^ 0xFFFF)).update_flags r0)

/-- Embeds `instructions::load` (LD). -/
def load (regs : Registers) (mem : Memory) (inp : Input) (instr : Nat) :
    Outcome (Registers × Memory × Input) :=
  let r0 := (instr >>> 9) &&& 0x7
  let pc_offset := sign_extend (instr &&& 0x1FF) 9
  let address := wrapping_add (regs.read 8) pc_offset
  match mem.read inp address with
  | Outcome.ok (value, mem1, inp1) =>
    Outcome.ok ((regs.write r0 value).update_flags r0, mem1, inp1)
  | Outcome.blocked => Outcome.blocked
  | Outcome.panicked msg => Outcome.panicked msg

/-- Embeds `instructions::store` (ST). -/
def store (regs : Registers) (mem : Memory) (instr : Nat) : Memory :=
  let r0 := (instr >>> 9) &&& 0x7
  let pc_offset := sign_extend (instr &&& 0x1FF) 9
  mem.write (wrapping_add (regs.read 8) pc_offset) (regs.read r0)

/-- Embeds `instructions::jump_to_subroutine` (src/isa/instructions.rs,
lines 169-185): R7 := PC first, then either the PC-relative jump (long
flag) or the register-indirect jump; note the base register is read after
R7 was overwritten. -/
def jump_to_subroutine (regs : Registers) (instr : Nat) : Registers :=
  let current_pc := regs.read 8
  let regs1 := regs.write 7 current_pc
  let long_flag := (instr >>> 11) &&& 0x1
  if long_flag = 1 then
    regs1.write 8 (wrapping_add current_pc (sign_extend (instr &&& 0x7FF) 11))
  else
    regs1.write 8 (regs1.read ((instr >>> 6) &&& 0x7))

/-- Embeds `instructions::load_register` (LDR). -/
def load_register (regs : Registers) (mem : Memory) (inp : Input) (instr : Nat) :
    Outcome (Registers × Memory × Input) :=
  let r0 := (instr >>> 9) &&& 0x7
  let r1 := (instr >>> 6) &&& 0x7
  let offset := sign_extend (instr &&& 0x3F) 6
  match mem.read inp (wrapping_add (regs.read r1) offset) with
  | Outcome.ok (value, mem1, inp1) =>
    Outcome.ok ((regs.write r0 value).update_flags r0, mem1, inp1)
  | Outcome.blocked => Outcome.blocked
  | Outcome.panicked msg => Outcome.panicked msg

/-- Embeds `instructions::store_register` (STR). -/
def store_register (regs : Registers) (mem : Memory) (instr : Nat) : Memory :=
  let r0 := (instr >>> 9) &&& 0x7
  let r1 := (instr >>> 6) &&& 0x7
  let offset := sign_extend (instr &&& 0x3F) 6
  mem.write (wrapping_add (regs.read r1) offset) (regs.read r0)

/-- Embeds `instructions::load_indirect` (LDI). -/
def load_indirect (regs : Registers) (mem : Memory) (inp : Input) (instr : Nat) :
    Outcome (Registers × Memory × Input) :=
  let r0 := (instr >>> 9) &&& 0x7
  let pc_offset := sign_extend (instr &&& 0x1FF) 9
  match mem.read inp (wrapping_add (regs.read 8) pc_offset) with
  | Outcome.ok (address, mem1, inp1) =>
    match mem1.read inp1 address with
    | Outcome.ok (value, mem2, inp2) =>
      Outcome.ok ((regs.write r0 value).update_flags r0, mem2, inp2)
    | Outcome.blocked => Outcome.blocked
    | Outcome.panicked msg => Outcome.panicked msg
  | Outcome.blocked => Outcome.blocked
  | Outcome.panicked msg => Outcome.panicked msg

/-- Embeds `instructions::store_indirect` (STI). -/
def store_indirect (regs : Registers) (mem : Memory) (inp : Input) (instr : Nat) :
    Outcome (Memory × Input) :=
  let r0 := (instr >>> 9) &&& 0x7
  let pc_offset := sign_extend (instr &&& 0x1FF) 9
  match mem.read inp (wrapping_add (regs.read 8) pc_offset) with
  | Outcome.ok (final_address, mem1, inp1) =>
    Outcome.ok (mem1.write final_address (regs.read r0), inp1)
  | Outcome.blocked => Outcome.blocked
  | Outcome.panicked msg => Outcome.panicked msg

/-- Embeds `instructions::jump` (JMP). -/
def jump (regs : Registers) (instr : Nat) : Registers :=
  regs.write 8 (regs.read ((instr >>> 6) &&& 0x7))

/-- Embeds `instructions::load_effective_address` (LEA). -/
def load_effective_address (regs : Registers) (instr : Nat) : Registers :=
  let r0 := (instr >>> 9) &&& 0x7
  let pc_offset := sign_extend (instr &&& 0x1FF) 9
  ((regs.write r0 (wrapping_add (regs.read 8) pc_offset)).update_flags r0)

/-- Embeds `isa::traps::Trapcode` (discriminants 0x20-0x25). -/
inductive Trapcode where
  | GETC | OUT | PUTS | IN | PUTSP | HALT

/-- Embeds `Trapcode::from` (src/isa/traps.rs, lines 25-42): the match over
0x20-0x25; the catch-all arm panics with "Invalid trap code value",
modelled as `none`. -/
def Trapcode.fromNat (value : Nat) : Option Trapcode :=
  if value = 0x20 then some .GETC
  else if value = 0x21 then some .OUT
  else if value = 0x22 then some .PUTS
  else if value = 0x23 then some .IN
  else if value = 0x24 then some .PUTSP
  else if value = 0x25 then some .HALT
  else none

/-- Embeds `traps::getc`: read one stdin byte (blocking), store it in R0,
update the flags.  No pending byte means the read blocks. -/
def getc (regs : Registers) (inp : Input) : Outcome (Registers × Input) :=
  match inp with
  | [] => Outcome.blocked
  | ch :: rest => Outcome.ok ((regs.write 0 ch).update_flags 0, rest)

/-- Embeds `traps::out`: prints the low byte of R0 as one character. -/
def out_trap (regs : Registers) : List Char :=
  [Char.ofNat (regs.read 0 % 256)]

/-- Embeds the body of the `puts` loop (src/isa/traps.rs, lines 109-120).
The Rust loop does `address += 1`, a checked `u16` addition that panics on
overflow (message "attempt to add with overflow") in the default
overflow-checked build; the explicit `address = 0xFFFF` branch models that
panic.  The fuel argument is always called with `65536 - address`, which
makes the recursion structural; the fuel-0 branch is unreachable for any
16-bit address.  A panic aborts the process, so output already printed
before a panic is not carried in the `panicked` outcome. -/
def putsLoop : Nat → Memory → Input → Nat → Outcome (Memory × Input × List Char)
  | 0, _, _, _ => Outcome.panicked "attempt to add with overflow"
  | fuel + 1, mem, inp, address =>
    match mem.read inp address with
    | Outcome.ok (word, mem1, inp1) =>
      if word = 0 then Outcome.ok (mem1, inp1, [])
      else if address = 0xFFFF then Outcome.panicked "attempt to add with overflow"
      else
        match putsLoop fuel mem1 inp1 (address + 1) with
        | Outcome.ok (mem2, inp2, rest) =>
          Outcome.ok (mem2, inp2, Char.ofNat (word % 256) :: rest)
        | Outcome.blocked => Outcome.blocked
        | Outcome.panicked msg => Outcome.panicked msg
    | Outcome.blocked => Outcome.blocked
    | Outcome.panicked msg => Outcome.panicked msg

/-- Embeds `traps::puts`: scan from the address in R0, printing each word
as a character, until a zero word. -/
def puts (regs : Registers) (mem : Memory) (inp : Input) :
    Outcome (Memory × Input × List Char) :=
  let address := regs.read 0
  putsLoop (65536 - address) mem inp address

/-- Embeds `traps::in_`: prompt, read one byte (blocking), echo it, store
it in R0, update the flags. -/
def in_trap (regs : Registers) (inp : Input) :
    Outcome (Registers × Input × List Char) :=
  match inp with
  | [] => Outcome.blocked
  | ch :: rest =>
    Outcome.ok ((regs.write 0 ch).update_flags 0, rest,
      "Enter a character: ".data ++ [Char.ofNat (ch % 256)])

/-- Embeds the body of the `putsp` loop (src/isa/traps.rs, lines 151-169):
each word is two characters, low byte first; a zero low byte stops the
loop before printing; a zero high byte is skipped but the loop continues
with the next word.  The `address += 1` checked-overflow panic and the fuel
argument are modelled exactly as in `putsLoop`. -/
def putspLoop : Nat → Memory → Input → Nat → Outcome (Memory × Input × List Char)
  | 0, _, _, _ => Outcome.panicked "attempt to add with overflow"
  | fuel + 1, mem, inp, address =>
    match mem.read inp address with
    | Outcome.ok (word, mem1, inp1) =>
      let char1 := word &&& 0xFF
      let char2 := (word >>> 8) % 256
      if char1 = 0 then Outcome.ok (mem1, inp1, [])
      else
        let emitted := if char2 ≠ 0 then [Char.ofNat char1, Char.ofNat char2]
                       else [Char.ofNat char1]
        if address = 0xFFFF then Outcome.panicked "attempt to add with overflow"
        else
          match putspLoop fuel mem1 inp1 (address + 1) with
          | Outcome.ok (mem2, inp2, rest) => Outcome.ok (mem2, inp2, emitted ++ rest)
          | Outcome.blocked => Outcome.blocked
          | Outcome.panicked msg => Outcome.panicked msg
    | Outcome.blocked => Outcome.blocked
    | Outcome.panicked msg => Outcome.panicked msg

/-- Embeds `traps::putsp`: scan from the address in R0. -/
def putsp (regs : Registers) (mem : Memory) (inp : Input) :
    Outcome (Memory × Input × List Char) :=
  let address := regs.read 0
  putspLoop (65536 - address) mem inp address

/-- Prepend one character to the output of a loop outcome (used to state
how one `putsp` iteration relates to the rest of the scan). -/
def prependOutput (c : Char) :
    Outcome (Memory × Input × List Char) → Outcome (Memory × Input × List Char)
  | Outcome.ok (m, i, outp) => Outcome.ok (m, i, c :: outp)
  | Outcome.blocked => Outcome.blocked
  | Outcome.panicked msg => Outcome.panicked msg

/-- Embeds `traps::halt`: print the notice and clear the running flag. -/
def halt_trap : List Char × Bool :=
  ("Program halted".data ++ [Char.ofNat 10], false)

/-- Embeds `traps::execute` (src/isa/traps.rs, lines 53-71): R7 := PC, then
dispatch on the low byte of the instruction; an unknown low byte panics
with "Invalid trap code value" (inside `Trapcode::from`). -/
def traps_execute (regs : Registers) (mem : Memory) (inp : Input)
    (instr : Nat) (running : Bool) :
    Outcome (Registers × Memory × Input × List Char × Bool) :=
  let pc := regs.read 8
  let regs1 := regs.write 7 pc
  match Trapcode.fromNat (instr &&& 0xFF) with
  | none => Outcome.panicked "Invalid trap code value"
  | some Trapcode.GETC =>
    match getc regs1 inp with
    | Outcome.ok (regs2, inp1) => Outcome.ok (regs2, mem, inp1, [], running)
    | Outcome.blocked => Outcome.blocked
    | Outcome.panicked msg => Outcome.panicked msg
  | some Trapcode.OUT => Outcome.ok (regs1, mem, inp, out_trap regs1, running)
  | some Trapcode.PUTS =>
    match puts regs1 mem inp with
    | Outcome.ok (mem1, inp1, outp) => Outcome.ok (regs1, mem1, inp1, outp, running)
    | Outcome.blocked => Outcome.blocked
    | Outcome.panicked msg => Outcome.panicked msg
  | some Trapcode.IN =>
    match in_trap regs1 inp with
    | Outcome.ok (regs2, inp1, outp) => Outcome.ok (regs2, mem, inp1, outp, running)
    | Outcome.blocked => Outcome.blocked
    | Outcome.panicked msg => Outcome.panicked msg
  | some Trapcode.PUTSP =>
    match putsp regs1 mem inp with
    | Outcome.ok (mem1, inp1, outp) => Outcome.ok (regs1, mem1, inp1, outp, running)
    | Outcome.blocked => Outcome.blocked
    | Outcome.panicked msg => Outcome.panicked msg
  | some Trapcode.HALT =>
    Outcome.ok (regs1, mem, inp, halt_trap.1, halt_trap.2)

/-- Dispatch of one decoded opcode, embedding the match arms of `VM::run`
(src/src/vm.rs, lines 68-98).  The result carries memory, registers, the
remaining input, the characters printed, and the running flag. -/
def execute_instr (op : Opcode) (mem : Memory) (regs : Registers)
    (inp : Input) (instr : Nat) (running : Bool) :
    Outcome (Memory × Registers × Input × List Char × Bool) :=
  match op with
  | Opcode.BR => Outcome.ok (mem, branch regs instr, inp, [], running)
  | Opcode.ADD => Outcome.ok (mem, add regs instr, inp, [], running)
  | Opcode.LD =>
    match load regs mem inp instr with
    | Outcome.ok (regs1, mem1, inp1) => Outcome.ok (mem1, regs1, inp1, [], running)
    | Outcome.blocked => Outcome.blocked
    | Outcome.panicked msg => Outcome.panicked msg
  | Opcode.ST => Outcome.ok (store regs mem instr, regs, inp, [], running)
  | Opcode.JSR => Outcome.ok (mem, jump_to_subroutine regs instr, inp, [], running)
  | Opcode.AND => Outcome.ok (mem, and_instr regs instr, inp, [], running)
  | Opcode.LDR =>
    match load_register regs mem inp instr with
    | Outcome.ok (regs1, mem1, inp1) => Outcome.ok (mem1, regs1, inp1, [], running)
    | Outcome.blocked => Outcome.blocked
    | Outcome.panicked msg => Outcome.panicked msg
  | Opcode.STR => Outcome.ok (store_register regs mem instr, regs, inp, [], running)
  | Opcode.NOT => Outcome.ok (mem, not_instr regs instr, inp, [], running)
  | Opcode.LDI =>
    match load_indirect regs mem inp instr with
    | Outcome.ok (regs1, mem1, inp1) => Outcome.ok (mem1, regs1, inp1, [], running)
    | Outcome.blocked => Outcome.blocked
    | Outcome.panicked msg => Outcome.panicked msg
  | Opcode.STI =>
    match store_indirect regs mem inp instr with
    | Outcome.ok (mem1, inp1) => Outcome.ok (mem1, regs, inp1, [], running)
    | Outcome.blocked => Outcome.blocked
    | Outcome.panicked msg => Outcome.panicked msg
  | Opcode.JMP => Outcome.ok (mem, jump regs instr, inp, [], running)
  | Opcode.LEA => Outcome.ok (mem, load_effective_address regs instr, inp, [], running)
  | Opcode.TRAP =>
    match traps_execute regs mem inp instr running with
    | Outcome.ok (regs1, mem1, inp1, outp, running1) =>
      Outcome.ok (mem1, regs1, inp1, outp, running1)
    | Outcome.blocked => Outcome.blocked
    | Outcome.panicked msg => Outcome.panicked msg
  | Opcode.RTI | Opcode.RES =>
    Outcome.ok (mem, regs, inp,
      "RTI and RES are not implemented".data ++ [Char.ofNat 10], running)

/-- One iteration of the `VM::run` loop (src/src/vm.rs, lines 68-98): fetch
the word at PC (a memory read, with the keyboard side effect if PC is the
status address), increment PC with wraparound, decode the top 4 bits, and
dispatch; an undecodable opcode would panic with "Invalid opcode value"
inside `Opcode::from`. -/
def VM.step (mem : Memory) (regs : Registers) (inp : Input) :
    Outcome (Memory × Registers × Input × List Char × Bool) :=
  let pc := regs.read 8
  match mem.read inp pc with
  | Outcome.ok (instr, mem1, inp1) =>
    let regs1 := regs.write 8 (wrapping_add pc 1)
    match Opcode.fromNat (instr >>> 12) with
    | some op => execute_instr op mem1 regs1 inp1 instr true
    | none => Outcome.panicked "Invalid opcode value"
  | Outcome.blocked => Outcome.blocked
  | Outcome.panicked msg => Outcome.panicked msg

/-- Writes `count` big-endian words taken from `bytes` (pairs of bytes at
positions 2i, 2i+1) into memory at `origin + i`, embedding the two loops at
the end of `VM::read_image_file`. -/
def loadWords (mem : Memory) (origin : Nat) (bytes : List Nat) (i : Nat) :
    Nat → Memory
  | 0 => mem
  | n + 1 =>
    loadWords
      (mem.write (origin + i) (256 * bytes.getD (2 * i) 0 + bytes.getD (2 * i + 1) 0))
      origin bytes (i + 1) n

/-- Embeds `VM::read_image_file` (src/src/vm.rs, lines 36-61) on a file
already read into a byte list.  `read_exact` on the 2-byte origin fails
when the file is shorter than 2 bytes (the `Err` carries the io error
text).  The single `file.read` call then fills at most
`(MEMORY_SIZE - origin) * 2` bytes: for a regular file it returns
`min remaining capacity` bytes, so data beyond the capacity is silently
dropped, and an odd trailing byte is dropped by the `read / 2` division. -/
def read_image_file (file : List Nat) (mem : Memory) : Except String Memory :=
  if file.length < 2 then
    Except.error "failed to fill whole buffer"
  else
    let origin := 256 * file.getD 0 0 + file.getD 1 0
    let rest := file.drop 2
    let max_read := MEMORY_SIZE - origin
    let read := min rest.length (max_read * 2)
    let read_u16_count := read / 2
    Except.ok (loadWords mem origin rest 0 read_u16_count)

lemma read_write (regs : Registers) (j v i : Nat) :
    (regs.write j v).read i = if i = j then v else regs.read i := rfl

lemma update_flags_read_ne (regs : Registers) (reg i : Nat) (h : i ≠ 9) :
    (regs.update_flags reg).read i = regs.read i := by
  simp only [Registers.update_flags]
  split_ifs <;> simp [read_write, h]

lemma update_flags_read9 (regs : Registers) (reg : Nat) :
    (regs.update_flags reg).read 9 =
      (if regs.read reg = 0 then Flag.ZRO
       else if regs.read reg >>> 15 = 1 then Flag.NEG
       else Flag.POS) := by
  simp only [Registers.update_flags]
  split_ifs <;> simp_all [read_write]

lemma condValid_update_flags (regs : Registers) (reg : Nat) :
    condValid (regs.update_flags reg) := by
  unfold condValid
  rw [update_flags_read9]
  split_ifs <;> simp [Flag.POS, Flag.ZRO, Flag.NEG]

lemma condValid_write (regs : Registers) (i v : Nat) (h : i ≠ 9)
    (hv : condValid regs) : condValid (regs.write i v) := by
  unfold condValid at hv ⊢
  rw [read_write, if_neg (by omega)] at *
  exact hv

lemma and7_ne_9 (n : Nat) : n &&& 7 ≠ 9 := by
  have : n &&& 7 ≤ 7 := Nat.and_le_right
  omega

/-- C7: for every bit_count in 1..16 and every value below 2^bit_count, if
the field's top bit is 1 then sign_extend sets exactly the bits from
bit_count through 15 on top of x (and no bit at or above 16), and if it is
0 the value is returned unchanged. -/
theorem c7_sign_extend (bit_count x : Nat) (h1 : 1 ≤ bit_count)
    (h16 : bit_count < 16) (hx : x < 2 ^ bit_count) :
    (x.testBit (bit_count - 1) = true →
      ∀ j, (sign_extend x bit_count).testBit j
        = (x.testBit j || (decide (bit_count ≤ j) && decide (j < 16))))
    ∧ (x.testBit (bit_count - 1) = false → sign_extend x bit_count = x) := by
  have hdiv : (x >>> (bit_count - 1)) &&& 1 = x / 2 ^ (bit_count - 1) % 2 := by
    rw [Nat.and_one_is_mod, Nat.shiftRight_eq_div_pow]
  constructor
  · intro hbit j
    have hcond : (x >>> (bit_count - 1)) &&& 1 ≠ 0 := by
      rw [Nat.testBit_to_div_mod, decide_eq_true_eq] at hbit
      omega
    rw [sign_extend, if_pos hcond]
    have h65536 : (65536 : Nat) = 2 ^ 16 := by norm_num
    have hmask : (0xFFFF : Nat) = 2 ^ 16 - 1 := by norm_num
    rw [Nat.testBit_or, h65536, Nat.testBit_mod_two_pow, Nat.testBit_shiftLeft,
      hmask, Nat.testBit_two_pow_sub_one]
    by_cases hj : j < 16 <;> by_cases hbc : bit_count ≤ j
    · have hsub : j - bit_count < 16 := by omega
      simp [hj, hbc, hsub, ge_iff_le]
    · simp [hj, hbc, ge_iff_le]
    · simp [hj, hbc]
    · simp [hj, hbc]
  · intro hbit
    have hcond : ¬((x >>> (bit_count - 1)) &&& 1 ≠ 0) := by
      rw [Nat.testBit_to_div_mod, decide_eq_false_iff_not] at hbit
      have : x / 2 ^ (bit_count - 1) % 2 < 2 := Nat.mod_lt _ (by omega)
      omega
    rw [sign_extend, if_neg hcond]

/-- Witness for C7 at the spec's own examples: sign_extend(0b111111, 6) is
0xFFFF and sign_extend(0b0111111, 7) is unchanged. -/
theorem c7_sign_extend_witness :
    sign_extend 63 6 = 0xFFFF ∧ sign_extend 63 7 = 63 ∧
      (sign_extend 63 6).testBit 15 = true := by
  refine ⟨by decide, ?_, ?_⟩
  · exact (c7_sign_extend 7 63 (by decide) (by decide) (by decide)).2 (by decide)
  · rw [(c7_sign_extend 6 63 (by decide) (by decide) (by decide)).1 (by decide) 15]
    decide

/-- C8: the ADD handler writes the destination register with the wrapping
(modulo 2^16) sum of SR1 and either the sign-extended 5-bit immediate or
SR2, updates COND from that new value, and touches no other register. -/
theorem c8_add (regs : Registers) (instr : Nat) :
    (add regs instr).read ((instr >>> 9) &&& 0x7)
      = (regs.read ((instr >>> 6) &&& 0x7)
          + (if (instr >>> 5) &&& 0x1 = 1 then sign_extend (instr &&& 0x1F) 5
             else regs.read (instr &&& 0x7))) % 65536
    ∧ (add regs instr).read 9
      = (if (regs.read ((instr >>> 6) &&& 0x7)
              + (if (instr >>> 5) &&& 0x1 = 1 then sign_extend (instr &&& 0x1F) 5
                 else regs.read (instr &&& 0x7))) % 65536 = 0 then Flag.ZRO
         else if ((regs.read ((instr >>> 6) &&& 0x7)
              + (if (instr >>> 5) &&& 0x1 = 1 then sign_extend (instr &&& 0x1F) 5
                 else regs.read (instr &&& 0x7))) % 65536) >>> 15 = 1 then Flag.NEG
         else Flag.POS)
    ∧ ∀ i, i ≠ (instr >>> 9) &&& 0x7 → i ≠ 9 →
        (add regs instr).read i = regs.read i := by
  have h9 : (instr >>> 9) &&& 0x7 ≠ 9 := and7_ne_9 _
  have hstep : add regs instr
      = ((if (instr >>> 5) &&& 0x1 = 1 then
            regs.write ((instr >>> 9) &&& 0x7)
              ((regs.read ((instr >>> 6) &&& 0x7) + sign_extend (instr &&& 0x1F) 5) % 65536)
          else
            regs.write ((instr >>> 9) &&& 0x7)
              ((regs.read ((instr >>> 6) &&& 0x7) + regs.read (instr &&& 0x7)) % 65536)
         ).update_flags ((instr >>> 9) &&& 0x7)) := rfl
  rw [hstep]
  by_cases himm : (instr >>> 5) &&& 0x1 = 1
  · simp only [if_pos himm]
    refine ⟨?_, ?_, fun i hi hi9 => ?_⟩
    · rw [update_flags_read_ne _ _ _ h9, read_write, if_pos rfl]
    · rw [update_flags_read9, read_write, if_pos rfl]
    · rw [update_flags_read_ne _ _ _ hi9, read_write, if_neg hi]
  · simp only [if_neg himm]
    refine ⟨?_, ?_, fun i hi hi9 => ?_⟩
    · rw [update_flags_read_ne _ _ _ h9, read_write, if_pos rfl]
    · rw [update_flags_read9, read_write, if_pos rfl]
    · rw [update_flags_read_ne _ _ _ hi9, read_write, if_neg hi]

/-- Witness for C8 at the spec's wraparound example: ADD R0, R1, #2 with
R1 = 0xFFFF yields R0 = 1 (no error), COND = POS, and R5 untouched. -/
theorem c8_add_witness :
    (add (Registers.new.write 1 0xFFFF) 0x1062).read 0 = 1
    ∧ (add (Registers.new.write 1 0xFFFF) 0x1062).read 9 = Flag.POS
    ∧ (add (Registers.new.write 1 0xFFFF) 0x1062).read 5
        = (Registers.new.write 1 0xFFFF).read 5 := by
  have h := c8_add (Registers.new.write 1 0xFFFF) 0x1062
  refine ⟨h.1.trans (by decide), h.2.1.trans (by decide), ?_⟩
  exact h.2.2 5 (by decide) (by decide)

lemma mem_read_ne_kbsr (m : Memory) (inp : Input) (address : Nat)
    (h : address ≠ KBSR) :
    m.read inp address = Outcome.ok (m.memory address, m, inp) := by
  simp [Memory.read, h]

/-- C1: evaluation of `Memory::read` at the keyboard-status address.  The
claim says the read is a non-blocking readiness check that, with no
character available, stores 0 in the status cell and consumes no input.
The code instead calls the blocking `getchar()`: with no pending byte the
read never returns (first conjunct), and when the byte read is the NUL
byte the status cell is cleared — the byte was still consumed (second
conjunct). -/
theorem c1_kbsr_read_blocks :
    Memory.read Memory.new [] 0xFE00 = Outcome.blocked
    ∧ Memory.read Memory.new [0] 0xFE00
        = Outcome.ok (0, Memory.new.write KBSR 0, []) :=
  ⟨rfl, rfl⟩

/-- Counterexample to C2: a file with origin 0xFFFF followed by two data
words (so the second word would land past address 0xFFFF).  The claim says
loading must fail; `read_image_file` instead succeeds, silently dropping
the second word and loading only `Memory[0xFFFF] = 1`. -/
theorem c2_overflow_counterexample :
    read_image_file [0xFF, 0xFF, 0x00, 0x01, 0x00, 0x02] Memory.new
      = Except.ok (Memory.new.write 0xFFFF 1) := rfl

/-- C2 amended: `read_image_file` fails exactly when the file holds fewer
than 2 bytes; any file with at least the 2 origin bytes loads successfully
(data that would extend past address 0xFFFF is silently truncated, never an
error), and the origin-0x3000 round-trip example loads as stated. -/
theorem c2_read_image_file :
    (∀ file mem, file.length < 2 →
      ∃ msg, read_image_file file mem = Except.error msg)
    ∧ (∀ file mem, 2 ≤ file.length →
      ∃ mem1, read_image_file file mem = Except.ok mem1)
    ∧ read_image_file [0x30, 0x00, 0x12, 0x34, 0xAB, 0xCD] Memory.new
        = Except.ok ((Memory.new.write 0x3000 0x1234).write 0x3001 0xABCD)
    ∧ ((Memory.new.write 0x3000 0x1234).write 0x3001 0xABCD).memory 0x3000 = 0x1234
    ∧ ((Memory.new.write 0x3000 0x1234).write 0x3001 0xABCD).memory 0x3001 = 0xABCD := by
  refine ⟨?_, ?_, rfl, by decide, by decide⟩
  · intro file mem h
    simp only [read_image_file, if_pos h]
    exact ⟨_, rfl⟩
  · intro file mem h
    simp only [read_image_file, if_neg (Nat.not_lt.mpr h)]
    exact ⟨_, rfl⟩

/-- Witness for C2: a 1-byte file fails to load; a well-formed 4-byte file
loads successfully. -/
theorem c2_read_image_file_witness :
    (∃ msg, read_image_file [0x30] Memory.new = Except.error msg)
    ∧ (∃ mem1, read_image_file [0x30, 0x00, 0x12, 0x34] Memory.new = Except.ok mem1) :=
  ⟨c2_read_image_file.1 [0x30] Memory.new (by decide),
   c2_read_image_file.2.1 [0x30, 0x00, 0x12, 0x34] Memory.new (by decide)⟩

/-- Counterexample to C3: JSRR with base register R7 (instruction 0x41C0)
in a state with PC = 0x3001 and R7 = 0x4000.  The claim says PC becomes
the value R7 held before the instruction (0x4000); the code writes R7 := PC
first and only then reads the base register, so PC becomes 0x3001. -/
theorem c3_jsrr_r7_counterexample :
    ((Registers.new.write 8 0x3001).write 7 0x4000).read 7 = 0x4000
    ∧ (jump_to_subroutine ((Registers.new.write 8 0x3001).write 7 0x4000) 0x41C0).read 8
        = 0x3001 := by
  exact ⟨by decide, by decide⟩

/-- C3 amended: JSR/JSRR sets R7 to the post-fetch-increment PC; the long
form adds the sign-extended 11-bit offset to PC with wrapping; the
register form sets PC to the base register read after R7 was overwritten,
so for base ≠ R7 this is the pre-instruction value, but for base = R7 it is
the just-saved PC. -/
theorem c3_jump_to_subroutine (regs : Registers) (instr : Nat) :
    (jump_to_subroutine regs instr).read 7 = regs.read 8
    ∧ ((instr >>> 11) &&& 0x1 = 1 →
        (jump_to_subroutine regs instr).read 8
          = (regs.read 8 + sign_extend (instr &&& 0x7FF) 11) % 65536)
    ∧ ((instr >>> 11) &&& 0x1 ≠ 1 →
        ((instr >>> 6) &&& 0x7 = 7 →
          (jump_to_subroutine regs instr).read 8 = regs.read 8)
        ∧ ((instr >>> 6) &&& 0x7 ≠ 7 →
          (jump_to_subroutine regs instr).read 8 = regs.read ((instr >>> 6) &&& 0x7))) := by
  have hstep : jump_to_subroutine regs instr
      = (if (instr >>> 11) &&& 0x1 = 1 then
          (regs.write 7 (regs.read 8)).write 8
            ((regs.read 8 + sign_extend (instr &&& 0x7FF) 11) % 65536)
         else
          (regs.write 7 (regs.read 8)).write 8
            ((regs.write 7 (regs.read 8)).read ((instr >>> 6) &&& 0x7))) := rfl
  rw [hstep]
  by_cases hlong : (instr >>> 11) &&& 0x1 = 1
  · simp only [if_pos hlong]
    refine ⟨?_, fun _ => ?_, fun h => absurd hlong h⟩
    · rw [read_write, if_neg (by omega), read_write, if_pos rfl]
    · rw [read_write, if_pos rfl]
  · simp only [if_neg hlong]
    refine ⟨?_, fun h => absurd h hlong, fun _ => ⟨fun hbase => ?_, fun hbase => ?_⟩⟩
    · rw [read_write, if_neg (by omega), read_write, if_pos rfl]
    · rw [read_write, if_pos rfl, hbase, read_write, if_pos rfl]
    · rw [read_write, if_pos rfl, read_write, if_neg hbase]

/-- Witness for C3 at the counterexample state: R7 receives the PC and,
because the base register is R7 itself, PC also becomes that saved PC. -/
theorem c3_jump_to_subroutine_witness :
    (jump_to_subroutine ((Registers.new.write 8 0x3001).write 7 0x4000) 0x41C0).read 7
      = 0x3001
    ∧ (jump_to_subroutine ((Registers.new.write 8 0x3001).write 7 0x4000) 0x41C0).read 8
      = 0x3001 := by
  have h := c3_jump_to_subroutine ((Registers.new.write 8 0x3001).write 7 0x4000) 0x41C0
  exact ⟨h.1.trans (by decide), (((h.2.2 (by decide)).1 (by decide)).trans (by decide))⟩

/-- Counterexample to C4: the trap instruction 0xF026 has low byte 0x26,
outside 0x20-0x25.  The claim says a recoverable error value identifying
the byte is returned; the code instead panics inside `Trapcode::from` with
the fixed message "Invalid trap code value". -/
theorem c4_unknown_trap_counterexample :
    traps_execute Registers.new Memory.new [] 0xF026 true
      = Outcome.panicked "Invalid trap code value" := rfl

/-- C4 amended: for every trap instruction whose low byte is outside
0x20-0x25, trap execution aborts with the panic message "Invalid trap code
value" (which does not identify the byte); no error value reaches the
caller. -/
theorem c4_unknown_trap (regs : Registers) (mem : Memory) (inp : Input)
    (instr : Nat) (running : Bool)
    (h : instr &&& 0xFF < 0x20 ∨ 0x25 < instr &&& 0xFF) :
    traps_execute regs mem inp instr running
      = Outcome.panicked "Invalid trap code value" := by
  have hnone : Trapcode.fromNat (instr &&& 0xFF) = none := by
    unfold Trapcode.fromNat
    have h20 : instr &&& 0xFF ≠ 0x20 := by omega
    have h21 : instr &&& 0xFF ≠ 0x21 := by omega
    have h22 : instr &&& 0xFF ≠ 0x22 := by omega
    have h23 : instr &&& 0xFF ≠ 0x23 := by omega
    have h24 : instr &&& 0xFF ≠ 0x24 := by omega
    have h25 : instr &&& 0xFF ≠ 0x25 := by omega
    simp [h20, h21, h22, h23, h24, h25]
  simp [traps_execute, hnone]

/-- Witness for C4 at trap byte 0x30. -/
theorem c4_unknown_trap_witness :
    traps_execute Registers.new Memory.new [] 0xF030 true
      = Outcome.panicked "Invalid trap code value" :=
  c4_unknown_trap _ _ _ _ _ (by decide)

/-- Counterexample to C5: memory holds the words 0x0041 ('A', zero high
byte), 0x0042 ('B'), 0x0000, and R0 points at the first.  The claim says
output stops after the 'A' (a word with zero high byte terminates the
scan); the code emits 'A', continues with the next word, emits 'B', and
only stops at the zero low byte of the third word. -/
theorem c5_putsp_counterexample :
    putsp Registers.new ((Memory.new.write 0 0x41).write 1 0x42) []
      = Outcome.ok ((Memory.new.write 0 0x41).write 1 0x42, [], ['A', 'B']) := rfl

/-- C5 amended: PUTSP stops (emitting nothing from the word) exactly at a
word whose low byte is zero; a word with nonzero low byte and zero high
byte has its low byte emitted and the scan then continues with the next
word. -/
theorem c5_putsp_step (regs : Registers) (mem : Memory) (inp : Input)
    (hK : regs.read 0 ≠ KBSR) (h16 : regs.read 0 < 65536) :
    (mem.memory (regs.read 0) &&& 0xFF = 0 →
      putsp regs mem inp = Outcome.ok (mem, inp, []))
    ∧ (mem.memory (regs.read 0) &&& 0xFF ≠ 0 →
        (mem.memory (regs.read 0) >>> 8) % 256 = 0 →
        regs.read 0 ≠ 0xFFFF →
        putsp regs mem inp
          = prependOutput (Char.ofNat (mem.memory (regs.read 0) &&& 0xFF))
              (putspLoop (65536 - (regs.read 0 + 1)) mem inp (regs.read 0 + 1))) := by
  have hunfold : putsp regs mem inp
      = putspLoop (65536 - (regs.read 0 + 1) + 1) mem inp (regs.read 0) := by
    simp only [putsp]
    congr 1
    omega
  constructor
  · intro h0
    rw [hunfold]
    simp [putspLoop, mem_read_ne_kbsr _ _ _ hK, h0]
  · intro h0 hhigh hFFFF
    have hsub : 65536 - (regs.read 0 + 1) = 65535 - regs.read 0 := by omega
    rw [hunfold, hsub]
    cases hrec : putspLoop (65535 - regs.read 0) mem inp (regs.read 0 + 1) <;>
      simp [putspLoop, mem_read_ne_kbsr _ _ _ hK, h0, hhigh, hFFFF, hrec, prependOutput]

/-- Witness for C5: with memory word 0x0048 ('H', zero high byte) at
address 0 and R0 = 0, the 'H' is emitted and the scan continues at
address 1. -/
theorem c5_putsp_step_witness :
    putsp Registers.new (Memory.new.write 0 0x48) []
      = prependOutput (Char.ofNat 0x48)
          (putspLoop 65535 (Memory.new.write 0 0x48) [] 1) := by
  have h := (c5_putsp_step Registers.new (Memory.new.write 0 0x48) []
    (by decide) (by decide)).2 (by decide) (by decide) (by decide)
  simpa using h

/-- C6: evaluation of `traps::puts` at the failing input for the
address-wraparound claim: R0 = 0xFFFF with a nonzero word at 0xFFFF.  The
claim (and the spec invariant) says the scan address wraps to 0x0000; the
code's `address += 1` is a checked u16 addition, which overflows past
0xFFFF and panics (default overflow-checked build) instead of wrapping. -/
theorem c6_puts_overflow :
    puts (Registers.new.write 0 0xFFFF) (Memory.new.write 0xFFFF 0x41) []
      = Outcome.panicked "attempt to add with overflow" := rfl

lemma condValid_branch (regs : Registers) (instr : Nat) (h : condValid regs) :
    condValid (branch regs instr) := by
  simp only [branch]
  split_ifs
  · exact condValid_write _ _ _ (by omega) h
  · exact h

lemma condValid_jsr (regs : Registers) (instr : Nat) (h : condValid regs) :
    condValid (jump_to_subroutine regs instr) := by
  simp only [jump_to_subroutine]
  split_ifs <;>
    exact condValid_write _ _ _ (by omega) (condValid_write _ _ _ (by omega) h)

lemma condValid_jump (regs : Registers) (instr : Nat) (h : condValid regs) :
    condValid (jump regs instr) :=
  condValid_write _ _ _ (by omega) h

lemma condValid_add (regs : Registers) (instr : Nat) :
    condValid (add regs instr) := by
  simp only [add]
  split_ifs <;> exact condValid_update_flags _ _

lemma condValid_and_instr (regs : Registers) (instr : Nat) :
    condValid (and_instr regs instr) := by
  simp only [and_instr]
  split_ifs <;> exact condValid_update_flags _ _

lemma condValid_not_instr (regs : Registers) (instr : Nat) :
    condValid (not_instr regs instr) :=
  condValid_update_flags _ _

lemma condValid_lea (regs : Registers) (instr : Nat) :
    condValid (load_effective_address regs instr) :=
  condValid_update_flags _ _

lemma condValid_load (regs : Registers) (mem : Memory) (inp : Input)
    (instr : Nat) (regs1 : Registers) (mem1 : Memory) (inp1 : Input)
    (h : load regs mem inp instr = Outcome.ok (regs1, mem1, inp1)) :
    condValid regs1 := by
  simp only [load] at h
  rcases hr : mem.read inp (wrapping_add (regs.read 8) (sign_extend (instr &&& 0x1FF) 9)) with
    p | _ | msg <;> rw [hr] at h <;> simp at h
  obtain ⟨h1, -⟩ := h
  rw [← h1]
  exact condValid_update_flags _ _

lemma condValid_load_register (regs : Registers) (mem : Memory) (inp : Input)
    (instr : Nat) (regs1 : Registers) (mem1 : Memory) (inp1 : Input)
    (h : load_register regs mem inp instr = Outcome.ok (regs1, mem1, inp1)) :
    condValid regs1 := by
  simp only [load_register] at h
  rcases hr : mem.read inp
      (wrapping_add (regs.read ((instr >>> 6) &&& 0x7)) (sign_extend (instr &&& 0x3F) 6)) with
    p | _ | msg <;> rw [hr] at h <;> simp at h
  obtain ⟨h1, -⟩ := h
  rw [← h1]
  exact condValid_update_flags _ _

lemma condValid_load_indirect (regs : Registers) (mem : Memory) (inp : Input)
    (instr : Nat) (regs1 : Registers) (mem1 : Memory) (inp1 : Input)
    (h : load_indirect regs mem inp instr = Outcome.ok (regs1, mem1, inp1)) :
    condValid regs1 := by
  simp only [load_indirect] at h
  rcases hr : mem.read inp (wrapping_add (regs.read 8) (sign_extend (instr &&& 0x1FF) 9)) with
    ⟨a1, m1, i1⟩ | _ | msg <;> rw [hr] at h <;> simp at h
  rcases hr2 : m1.read i1 a1 with p | _ | msg <;> rw [hr2] at h <;> simp at h
  obtain ⟨h1, -⟩ := h
  rw [← h1]
  exact condValid_update_flags _ _

lemma condValid_getc (regs : Registers) (inp : Input) (regs1 : Registers)
    (inp1 : Input) (h : getc regs inp = Outcome.ok (regs1, inp1)) :
    condValid regs1 := by
  cases inp with
  | nil => simp [getc] at h
  | cons ch rest =>
    simp only [getc] at h
    simp at h
    rw [← h.1]
    exact condValid_update_flags _ _

lemma condValid_in_trap (regs : Registers) (inp : Input) (regs1 : Registers)
    (inp1 : Input) (outp : List Char)
    (h : in_trap regs inp = Outcome.ok (regs1, inp1, outp)) :
    condValid regs1 := by
  cases inp with
  | nil => simp [in_trap] at h
  | cons ch rest =>
    simp only [in_trap] at h
    simp at h
    rw [← h.1]
    exact condValid_update_flags _ _

lemma condValid_traps_execute (regs : Registers) (mem : Memory) (inp : Input)
    (instr : Nat) (running : Bool) (regs1 : Registers) (mem1 : Memory)
    (inp1 : Input) (outp : List Char) (running1 : Bool) (h : condValid regs)
    (hok : traps_execute regs mem inp instr running
      = Outcome.ok (regs1, mem1, inp1, outp, running1)) :
    condValid regs1 := by
  have h7 : condValid (regs.write 7 (regs.read 8)) :=
    condValid_write _ _ _ (by omega) h
  simp only [traps_execute] at hok
  rcases htc : Trapcode.fromNat (instr &&& 0xFF) with _ | t <;> rw [htc] at hok
  · simp at hok
  · cases t
    case GETC =>
      rcases hg : getc (regs.write 7 (regs.read 8)) inp with ⟨r2, i2⟩ | _ | msg <;>
        rw [hg] at hok <;> simp at hok
      rw [← hok.1]
      exact condValid_getc _ _ _ _ hg
    case OUT =>
      simp at hok
      rw [← hok.1]
      exact h7
    case PUTS =>
      rcases hp : puts (regs.write 7 (regs.read 8)) mem inp with ⟨m2, i2, o2⟩ | _ | msg <;>
        rw [hp] at hok <;> simp at hok
      rw [← hok.1]
      exact h7
    case IN =>
      rcases hi : in_trap (regs.write 7 (regs.read 8)) inp with ⟨r2, i2, o2⟩ | _ | msg <;>
        rw [hi] at hok <;> simp at hok
      rw [← hok.1]
      exact condValid_in_trap _ _ _ _ _ hi
    case PUTSP =>
      rcases hp : putsp (regs.write 7 (regs.read 8)) mem inp with ⟨m2, i2, o2⟩ | _ | msg <;>
        rw [hp] at hok <;> simp at hok
      rw [← hok.1]
      exact h7
    case HALT =>
      simp at hok
      rw [← hok.1]
      exact h7

/-- C9: COND starts at ZRO, `update_flags` sets it to ZRO for a zero value,
NEG when bit 15 of the (16-bit) value is set, POS otherwise, and executing
any instruction from a state whose COND holds one of POS/ZRO/NEG yields a
state whose COND again holds one of POS/ZRO/NEG — so the invariant holds in
every reachable state. -/
theorem c9_cond_invariant :
    Registers.new.read 9 = Flag.ZRO
    ∧ (∀ (regs : Registers) (reg : Nat), regs.read reg < 65536 →
        (regs.update_flags reg).read 9 =
          (if regs.read reg = 0 then Flag.ZRO
           else if (regs.read reg).testBit 15 then Flag.NEG
           else Flag.POS))
    ∧ (∀ (op : Opcode) (mem : Memory) (regs : Registers) (inp : Input)
        (instr : Nat) (running : Bool) (mem1 : Memory) (regs1 : Registers)
        (inp1 : Input) (outp : List Char) (running1 : Bool),
        condValid regs →
        execute_instr op mem regs inp instr running
          = Outcome.ok (mem1, regs1, inp1, outp, running1) →
        condValid regs1) := by
  refine ⟨rfl, ?_, ?_⟩
  · intro regs reg h
    rw [update_flags_read9]
    by_cases hz : regs.read reg = 0
    · simp [hz]
    · have hlt : regs.read reg / 32768 < 2 := Nat.div_lt_of_lt_mul (by omega)
      have hsr : regs.read reg >>> 15 = regs.read reg / 32768 := by
        rw [Nat.shiftRight_eq_div_pow]
      have hbit : (regs.read reg).testBit 15 = decide (regs.read reg / 32768 = 1) := by
        rw [Nat.testBit_to_div_mod]
        norm_num [Nat.mod_eq_of_lt hlt]
      simp only [if_neg hz, hsr, hbit]
      by_cases hb : regs.read reg / 32768 = 1 <;> simp [hb]
  · intro op mem regs inp instr running mem1 regs1 inp1 outp running1 h hok
    cases op
    case BR =>
      simp only [execute_instr] at hok
      simp at hok
      rw [← hok.2.1]
      exact condValid_branch _ _ h
    case ADD =>
      simp only [execute_instr] at hok
      simp at hok
      rw [← hok.2.1]
      exact condValid_add _ _
    case LD =>
      simp only [execute_instr] at hok
      rcases hl : load regs mem inp instr with ⟨r2, m2, i2⟩ | _ | msg <;>
        rw [hl] at hok <;> simp at hok
      rw [← hok.2.1]
      exact condValid_load _ _ _ _ _ _ _ hl
    case ST =>
      simp only [execute_instr] at hok
      simp at hok
      rw [← hok.2.1]
      exact h
    case JSR =>
      simp only [execute_instr] at hok
      simp at hok
      rw [← hok.2.1]
      exact condValid_jsr _ _ h
    case AND =>
      simp only [execute_instr] at hok
      simp at hok
      rw [← hok.2.1]
      exact condValid_and_instr _ _
    case LDR =>
      simp only [execute_instr] at hok
      rcases hl : load_register regs mem inp instr with ⟨r2, m2, i2⟩ | _ | msg <;>
        rw [hl] at hok <;> simp at hok
      rw [← hok.2.1]
      exact condValid_load_register _ _ _ _ _ _ _ hl
    case STR =>
      simp only [execute_instr] at hok
      simp at hok
      rw [← hok.2.1]
      exact h
    case RTI =>
      simp only [execute_instr] at hok
      simp at hok
      rw [← hok.2.1]
      exact h
    case NOT =>
      simp only [execute_instr] at hok
      simp at hok
      rw [← hok.2.1]
      exact condValid_not_instr _ _
    case LDI =>
      simp only [execute_instr] at hok
      rcases hl : load_indirect regs mem inp instr with ⟨r2, m2, i2⟩ | _ | msg <;>
        rw [hl] at hok <;> simp at hok
      rw [← hok.2.1]
      exact condValid_load_indirect _ _ _ _ _ _ _ hl
    case STI =>
      simp only [execute_instr] at hok
      rcases hs : store_indirect regs mem inp instr with ⟨m2, i2⟩ | _ | msg <;>
        rw [hs] at hok <;> simp at hok
      rw [← hok.2.1]
      exact h
    case JMP =>
      simp only [execute_instr] at hok
      simp at hok
      rw [← hok.2.1]
      exact condValid_jump _ _ h
    case RES =>
      simp only [execute_instr] at hok
      simp at hok
      rw [← hok.2.1]
      exact h
    case LEA =>
      simp only [execute_instr] at hok
      simp at hok
      rw [← hok.2.1]
      exact condValid_lea _ _
    case TRAP =>
      simp only [execute_instr] at hok
      rcases ht : traps_execute regs mem inp instr running with
        ⟨r2, m2, i2, o2, b2⟩ | _ | msg <;> rw [ht] at hok <;> simp at hok
      rw [← hok.2.1]
      exact condValid_traps_execute _ _ _ _ _ _ _ _ _ _ h ht

/-- Witness for C9: executing the concrete ADD of the wraparound example
from the initial state leaves COND holding one of the three flags, and
update_flags on a zero register reports ZRO. -/
theorem c9_cond_invariant_witness :
    condValid (add Registers.new 0x1062)
    ∧ (Registers.new.update_flags 0).read 9 = Flag.ZRO := by
  constructor
  · exact c9_cond_invariant.2.2 Opcode.ADD Memory.new Registers.new [] 0x1062 true
      Memory.new (add Registers.new 0x1062) [] [] true
      (Or.inr (Or.inl rfl)) rfl
  · rw [c9_cond_invariant.2.1 Registers.new 0 (by decide)]
    decide

lemma mem_read_no_panic (m : Memory) (inp : Input) (address : Nat)
    (msg : String) : m.read inp address ≠ Outcome.panicked msg := by
  simp only [Memory.read]
  split_ifs with hK
  · cases inp <;> simp [getchar] <;> split_ifs <;> simp
  · simp

lemma mem_read_lt (m : Memory) (inp : Input) (address v : Nat) (m1 : Memory)
    (inp1 : Input) (hwf : ∀ a, m.memory a < 65536)
    (h : m.read inp address = Outcome.ok (v, m1, inp1)) : v < 65536 := by
  simp only [Memory.read] at h
  split_ifs at h with hK
  · cases inp with
    | nil => simp [getchar] at h
    | cons c rest =>
      simp only [getchar] at h
      split_ifs at h with hc <;>
        simp only [Outcome.ok.injEq, Prod.mk.injEq] at h <;>
        rw [← h.1, hK] <;>
        simp [Memory.write, KBSR, KBDR]
  · simp only [Outcome.ok.injEq, Prod.mk.injEq] at h
    rw [← h.1]
    exact hwf address

lemma load_no_panic (regs : Registers) (mem : Memory) (inp : Input)
    (instr : Nat) (msg : String) :
    load regs mem inp instr ≠ Outcome.panicked msg := by
  simp only [load]
  rcases hr : mem.read inp (wrapping_add (regs.read 8) (sign_extend (instr &&& 0x1FF) 9)) with
    p | _ | m
  · simp
  · simp
  · exact absurd hr (mem_read_no_panic _ _ _ _)

lemma load_register_no_panic (regs : Registers) (mem : Memory) (inp : Input)
    (instr : Nat) (msg : String) :
    load_register regs mem inp instr ≠ Outcome.panicked msg := by
  simp only [load_register]
  rcases hr : mem.read inp
      (wrapping_add (regs.read ((instr >>> 6) &&& 0x7)) (sign_extend (instr &&& 0x3F) 6)) with
    p | _ | m
  · simp
  · simp
  · exact absurd hr (mem_read_no_panic _ _ _ _)

lemma load_indirect_no_panic (regs : Registers) (mem : Memory) (inp : Input)
    (instr : Nat) (msg : String) :
    load_indirect regs mem inp instr ≠ Outcome.panicked msg := by
  simp only [load_indirect]
  rcases hr : mem.read inp (wrapping_add (regs.read 8) (sign_extend (instr &&& 0x1FF) 9)) with
    ⟨a1, m1, i1⟩ | _ | m
  · rcases hr2 : m1.read i1 a1 with p | _ | m2
    · simp [hr2]
    · simp [hr2]
    · exact absurd hr2 (mem_read_no_panic _ _ _ _)
  · simp
  · exact absurd hr (mem_read_no_panic _ _ _ _)

lemma store_indirect_no_panic (regs : Registers) (mem : Memory) (inp : Input)
    (instr : Nat) (msg : String) :
    store_indirect regs mem inp instr ≠ Outcome.panicked msg := by
  simp only [store_indirect]
  rcases hr : mem.read inp (wrapping_add (regs.read 8) (sign_extend (instr &&& 0x1FF) 9)) with
    p | _ | m
  · simp
  · simp
  · exact absurd hr (mem_read_no_panic _ _ _ _)

lemma putsLoop_panic_msg (fuel : Nat) :
    ∀ (mem : Memory) (inp : Input) (address : Nat) (msg : String),
      putsLoop fuel mem inp address = Outcome.panicked msg →
      msg = "attempt to add with overflow" := by
  induction fuel with
  | zero =>
    intro mem inp address msg h
    simp only [putsLoop, Outcome.panicked.injEq] at h
    exact h.symm
  | succ fuel ih =>
    intro mem inp address msg h
    rcases hr : mem.read inp address with ⟨word, m1, i1⟩ | _ | m
    · simp only [putsLoop, hr] at h
      split_ifs at h with h0 hF
      · simp only [Outcome.panicked.injEq] at h
        exact h.symm
      · rcases hrec : putsLoop fuel m1 i1 (address + 1) with p | _ | m2
        · simp [hrec] at h
        · simp [hrec] at h
        · simp only [hrec, Outcome.panicked.injEq] at h
          rw [← h]
          exact ih _ _ _ _ hrec
    · simp only [putsLoop, hr] at h
      simp at h
    · exact absurd hr (mem_read_no_panic _ _ _ _)

lemma putspLoop_panic_msg (fuel : Nat) :
    ∀ (mem : Memory) (inp : Input) (address : Nat) (msg : String),
      putspLoop fuel mem inp address = Outcome.panicked msg →
      msg = "attempt to add with overflow" := by
  induction fuel with
  | zero =>
    intro mem inp address msg h
    simp only [putspLoop, Outcome.panicked.injEq] at h
    exact h.symm
  | succ fuel ih =>
    intro mem inp address msg h
    rcases hr : mem.read inp address with ⟨word, m1, i1⟩ | _ | m
    · simp only [putspLoop, hr] at h
      split_ifs at h with h0 hF
      · simp only [Outcome.panicked.injEq] at h
        exact h.symm
      · rcases hrec : putspLoop fuel m1 i1 (address + 1) with p | _ | m2
        · simp [hrec] at h
        · simp [hrec] at h
        · simp only [hrec, Outcome.panicked.injEq] at h
          rw [← h]
          exact ih _ _ _ _ hrec
      · rcases hrec : putspLoop fuel m1 i1 (address + 1) with p | _ | m2
        · simp [hrec] at h
        · simp [hrec] at h
        · simp only [hrec, Outcome.panicked.injEq] at h
          rw [← h]
          exact ih _ _ _ _ hrec
    · simp only [putspLoop, hr] at h
      simp at h
    · exact absurd hr (mem_read_no_panic _ _ _ _)

lemma traps_panic_msg (regs : Registers) (mem : Memory) (inp : Input)
    (instr : Nat) (running : Bool) (msg : String)
    (h : traps_execute regs mem inp instr running = Outcome.panicked msg) :
    msg = "Invalid trap code value" ∨ msg = "attempt to add with overflow" := by
  simp only [traps_execute] at h
  rcases htc : Trapcode.fromNat (instr &&& 0xFF) with _ | t <;> rw [htc] at h
  · cases h
    exact Or.inl rfl
  · cases t
    case GETC =>
      cases inp <;> simp [getc] at h
    case OUT => cases h
    case PUTS =>
      rcases hp : puts (regs.write 7 (regs.read 8)) mem inp with p | _ | m <;>
        rw [hp] at h <;> cases h
      exact Or.inr (putsLoop_panic_msg _ _ _ _ _ hp)
    case IN =>
      cases inp <;> simp [in_trap] at h
    case PUTSP =>
      rcases hp : putsp (regs.write 7 (regs.read 8)) mem inp with p | _ | m <;>
        rw [hp] at h <;> cases h
      exact Or.inr (putspLoop_panic_msg _ _ _ _ _ hp)
    case HALT => cases h

lemma execute_instr_no_opcode_panic (op : Opcode) (mem : Memory)
    (regs : Registers) (inp : Input) (instr : Nat) (running : Bool) :
    execute_instr op mem regs inp instr running
      ≠ Outcome.panicked "Invalid opcode value" := by
  cases op
  case BR => simp [execute_instr]
  case ADD => simp [execute_instr]
  case LD =>
    simp only [execute_instr]
    rcases hl : load regs mem inp instr with p | _ | msg
    · simp
    · simp
    · exact absurd hl (load_no_panic _ _ _ _ _)
  case ST => simp [execute_instr]
  case JSR => simp [execute_instr]
  case AND => simp [execute_instr]
  case LDR =>
    simp only [execute_instr]
    rcases hl : load_register regs mem inp instr with p | _ | msg
    · simp
    · simp
    · exact absurd hl (load_register_no_panic _ _ _ _ _)
  case STR => simp [execute_instr]
  case RTI => simp [execute_instr]
  case NOT => simp [execute_instr]
  case LDI =>
    simp only [execute_instr]
    rcases hl : load_indirect regs mem inp instr with p | _ | msg
    · simp [hl]
    · simp [hl]
    · exact absurd hl (load_indirect_no_panic _ _ _ _ _)
  case STI =>
    simp only [execute_instr]
    rcases hs : store_indirect regs mem inp instr with p | _ | msg
    · simp [hs]
    · simp [hs]
    · exact absurd hs (store_indirect_no_panic _ _ _ _ _)
  case JMP => simp [execute_instr]
  case RES => simp [execute_instr]
  case LEA => simp [execute_instr]
  case TRAP =>
    simp only [execute_instr]
    rcases ht : traps_execute regs mem inp instr running with p | _ | msg
    · simp [ht]
    · simp [ht]
    · intro hcontra
      rcases traps_panic_msg _ _ _ _ _ _ ht with hm | hm <;>
        rw [hm] at hcontra <;> simp at hcontra

/-- C10: decoding the top 4 bits of any 16-bit instruction always yields
one of the 16 opcodes (so the invalid-opcode panic is unreachable from the
execution loop for any well-formed memory), and the RTI/RES arms of the
loop only print the unimplemented notice, leaving memory, registers, input
and the running flag untouched. -/
theorem c10_opcode_decode :
    (∀ v, v < 16 → (Opcode.fromNat v).isSome = true)
    ∧ (∀ (mem : Memory) (regs : Registers) (inp : Input),
        (∀ a, mem.memory a < 65536) →
        VM.step mem regs inp ≠ Outcome.panicked "Invalid opcode value")
    ∧ (∀ (mem : Memory) (regs : Registers) (inp : Input) (instr : Nat)
        (running : Bool),
        execute_instr Opcode.RTI mem regs inp instr running
          = Outcome.ok (mem, regs, inp,
              "RTI and RES are not implemented".data ++ [Char.ofNat 10], running)
        ∧ execute_instr Opcode.RES mem regs inp instr running
          = Outcome.ok (mem, regs, inp,
              "RTI and RES are not implemented".data ++ [Char.ofNat 10], running)) := by
  refine ⟨by decide, ?_, fun _ _ _ _ _ => ⟨rfl, rfl⟩⟩
  intro mem regs inp hwf
  rcases hr : mem.read inp (regs.read 8) with ⟨instr, m1, i1⟩ | _ | msg
  · have hlt : instr < 65536 := mem_read_lt _ _ _ _ _ _ hwf hr
    have hv : instr >>> 12 < 16 := by
      rw [Nat.shiftRight_eq_div_pow]
      exact Nat.div_lt_of_lt_mul (by omega)
    have hsome : (Opcode.fromNat (instr >>> 12)).isSome = true := by
      have hall : ∀ v, v < 16 → (Opcode.fromNat v).isSome = true := by decide
      exact hall _ hv
    rcases hop : Opcode.fromNat (instr >>> 12) with _ | op
    · rw [hop] at hsome
      simp at hsome
    · simp only [VM.step, hr, hop]
      exact execute_instr_no_opcode_panic _ _ _ _ _ _
  · simp [VM.step, hr]
  · exact absurd hr (mem_read_no_panic _ _ _ _)

/-- Witness for C10: the decode of the RTI opcode value succeeds, and one
step of the loop from the empty machine does not hit the invalid-opcode
panic. -/
theorem c10_opcode_decode_witness :
    (Opcode.fromNat 8).isSome = true
    ∧ VM.step Memory.new Registers.new []
        ≠ Outcome.panicked "Invalid opcode value" := by
  constructor
  · exact c10_opcode_decode.1 8 (by decide)
  · exact c10_opcode_decode.2.1 Memory.new Registers.new []
      (fun a => (by decide : (0 : Nat) < 65536))
